import Mathlib

/-!
Verification of the forked/cached state database (`fork-database/src/forked_db.rs`).

The development shallowly embeds the data model and operations of
`ForkedDatabase`, its snapshot machinery (`Snapshots`, `ForkDbSnapshot`,
`StateSnapshot`) and the read/write layers it composes.  Hash maps are
embedded as partial functions `K → Option V`; `U256` arithmetic is embedded
over `Nat` with the 256-bit bound made explicit where the source's
arithmetic saturates or panics on overflow.  Fallible operations return
`Except`; an operation that can panic returns `Option` with `none` marking
the panic.
-/

/-- Finite-map abstraction for the hash maps of the source (`hashbrown::HashMap`,
`BTreeMap`): a map is a partial function from keys to values. -/
abbrev AMap (K V : Type) : Type := K → Option V

/-- The empty map (`HashMap::new` / `clear`). -/
def AMap.empty {K V : Type} : AMap K V := fun _ => none

/-- Map lookup (`HashMap::get`). -/
def AMap.find? {K V : Type} (m : AMap K V) (k : K) : Option V := m k

/-- Map insertion (`HashMap::insert`): the new binding shadows any old one. -/
def AMap.insert {K V : Type} [DecidableEq K] (m : AMap K V) (k : K) (v : V) : AMap K V :=
  fun q => if q = k then some v else m q

/-- Map removal (`HashMap::remove`). -/
def AMap.erase {K V : Type} [DecidableEq K] (m : AMap K V) (k : K) : AMap K V :=
  fun q => if q = k then none else m q

/-- `HashMap::extend`: every binding of `src` overwrites the corresponding
binding of `m`; bindings of `m` at keys absent from `src` survive. -/
def AMap.extend {K V : Type} (m src : AMap K V) : AMap K V :=
  fun q =>
    match src q with
    | some v => some v
    | none => m q

/-- Erases the `n` consecutive keys `start, start+1, ..., start+n-1`; this is the
loop `while to_revert < self.id { self.snapshots.remove(&to_revert); to_revert = to_revert + 1 }`
of `Snapshots::remove`, expressed with its iteration count. -/
def AMap.eraseRange {V : Type} (m : AMap Nat V) (start : Nat) : Nat → AMap Nat V
  | 0 => m
  | n + 1 => AMap.eraseRange (m.erase start) (start + 1) n

/-- The largest value of the 256-bit unsigned integer type `U256`. -/
def U256max : Nat := 2 ^ 256 - 1

/-- Checked `U256` addition.  The `uint` crate's `impl Add for U256` panics with
"arithmetic operation overflow" when the mathematical sum exceeds `U256max`;
`none` embeds that panic. -/
def u256add (a b : Nat) : Option Nat :=
  if a + b ≤ U256max then some (a + b) else none

/-- `U256::saturating_add`. -/
def u256satAdd (a b : Nat) : Nat := min (a + b) U256max

/-- `revm::primitives::AccountInfo` restricted to the fields the spec treats as
payload: balance, nonce and code hash (the code reference is an opaque value). -/
structure AccountInfo where
  balance : Nat
  nonce : Nat
  codeHash : Nat
  deriving Repr, DecidableEq

/-- Typed database error (`errors::DatabaseError`), one variant per fetch kind. -/
inductive DatabaseError where
  | getAccount (addr : Nat)
  | getStorage (addr : Nat) (slot : Nat)
  | getBlockHash (num : Nat)
  | missingCode (codeHash : Nat)
  deriving Repr, DecidableEq

/-- Modelled from the spec: the RemoteCache owned by the remote state source
(`BlockchainDb` of `blockchain_db.rs`, not under `src/`): "three independent
mappings: accounts, storage (Address × StorageKey → StorageValue), and block
hashes", read-through and grown on fetch.  Storage is keyed per address, as
in `db.storage.write()` of `revert_snapshot`. -/
structure BlockchainDb where
  accounts : AMap Nat AccountInfo
  storage : AMap Nat (AMap Nat Nat)
  block_hashes : AMap Nat Nat

/-- `snapshot::StateSnapshot` (declared outside `src/`, shape fixed by the
destructuring in `revert_snapshot`): the captured copies of the RemoteCache's
three maps. -/
structure StateSnapshot where
  accounts : AMap Nat AccountInfo
  storage : AMap Nat (AMap Nat Nat)
  block_hashes : AMap Nat Nat

/-- Modelled from the spec: the remote state source handle
(`shared_backend::SharedBackend`, not under `src/`).  It answers point queries
against a pinned block, "may cache answers to a backing store shared across all
consumers" (the `BlockchainDb` above), always resolves an account to a
(possibly default) record, and fails with a transport error when the transport
is unavailable.  `set_pinned_block` re-targets all subsequent fetches and may
fail. -/
structure SharedBackend where
  pinned : Nat
  pinOk : Nat → Bool
  available : Bool
  remoteAccounts : Nat → Nat → AccountInfo
  remoteStorage : Nat → Nat → Nat → Nat
  remoteBlockHash : Nat → Nat → Nat
  remoteCode : Nat → Nat

/-- Modelled from the spec: `SharedBackend::set_pinned_block` — re-pins the
remote source to `block`, or fails with the underlying error. -/
def SharedBackend.set_pinned_block (be : SharedBackend) (block : Nat) :
    Except String SharedBackend :=
  if be.pinOk block then Except.ok { be with pinned := block }
  else Except.error "failed to set pinned block"

/-- Modelled from the spec: an account fetch through the backend.  The shared
RemoteCache is consulted first; on miss the remote endpoint is queried (always
yielding a record) and the fetched record is written back into the RemoteCache;
the fetch fails only on transport error. -/
def SharedBackend.basicFetch (be : SharedBackend) (db : BlockchainDb) (a : Nat) :
    Except DatabaseError (AccountInfo × BlockchainDb) :=
  match db.accounts.find? a with
  | some info => Except.ok (info, db)
  | none =>
    if be.available then
      let info := be.remoteAccounts be.pinned a
      Except.ok (info, { db with accounts := db.accounts.insert a info })
    else Except.error (DatabaseError.getAccount a)

/-- Modelled from the spec: a storage-slot fetch through the backend, with the
same RemoteCache read-through as `SharedBackend.basicFetch`. -/
def SharedBackend.storageFetch (be : SharedBackend) (db : BlockchainDb) (a i : Nat) :
    Except DatabaseError (Nat × BlockchainDb) :=
  let acctStorage :=
    match db.storage.find? a with
    | some s => s
    | none => AMap.empty
  match acctStorage.find? i with
  | some v => Except.ok (v, db)
  | none =>
    if be.available then
      let v := be.remoteStorage be.pinned a i
      Except.ok (v, { db with storage := db.storage.insert a (acctStorage.insert i v) })
    else Except.error (DatabaseError.getStorage a i)

/-- Modelled from the spec: a block-hash fetch through the backend, with the
same RemoteCache read-through as `SharedBackend.basicFetch`. -/
def SharedBackend.blockHashFetch (be : SharedBackend) (db : BlockchainDb) (n : Nat) :
    Except DatabaseError (Nat × BlockchainDb) :=
  match db.block_hashes.find? n with
  | some h => Except.ok (h, db)
  | none =>
    if be.available then
      let h := be.remoteBlockHash be.pinned n
      Except.ok (h, { db with block_hashes := db.block_hashes.insert n h })
    else Except.error (DatabaseError.getBlockHash n)

/-- Modelled from the spec: a contract-code fetch through the backend.  The
RemoteCache holds no code map (it has exactly three maps), so the fetch goes to
the remote endpoint directly. -/
def SharedBackend.codeFetch (be : SharedBackend) (h : Nat) : Except DatabaseError Nat :=
  if be.available then Except.ok (be.remoteCode h) else Except.error (DatabaseError.missingCode h)

/-- An account entry of the local overlay (`revm`'s `DbAccount`, shape fixed by
`self.local.accounts.get(&address).and_then(|account| account.storage.get(&index))`
and `account.info.clone()` in `forked_db.rs`). -/
structure DbAccount where
  info : AccountInfo
  storage : AMap Nat Nat

/-- Modelled from the spec: the local overlay `revm::db::CacheDB` (external
crate).  It "holds only data that has been explicitly written or
fetched-through", per-address account records with per-slot storage, plus
contract code and block hashes already materialized locally.  The backend
handle it carries in the source is shared state, passed explicitly to the
query functions below. -/
structure CacheDB where
  accounts : AMap Nat DbAccount
  contracts : AMap Nat Nat
  block_hashes : AMap Nat Nat

/-- `CacheDB::new`: a fresh, empty overlay. -/
def CacheDB.new : CacheDB :=
  { accounts := AMap.empty, contracts := AMap.empty, block_hashes := AMap.empty }

/-- Modelled from the spec: `<CacheDB as Database>::basic` — overlay first; on
miss, fetch through the backend and remember the fetched record in the overlay
("this locally-cached fetched value is indistinguishable afterward from a
genuinely local write"). -/
def CacheDB.basic (c : CacheDB) (be : SharedBackend) (db : BlockchainDb) (a : Nat) :
    Except DatabaseError (Option AccountInfo) × CacheDB × BlockchainDb :=
  match c.accounts.find? a with
  | some acc => (Except.ok (some acc.info), c, db)
  | none =>
    match be.basicFetch db a with
    | Except.error e => (Except.error e, c, db)
    | Except.ok (info, db') =>
      (Except.ok (some info),
        { c with accounts := c.accounts.insert a { info := info, storage := AMap.empty } },
        db')

/-- Modelled from the spec: `<CacheDB as DatabaseRef>::basic` — the same
fallback ordering as the mutable variant, without writing into the overlay. -/
def CacheDB.basicRef (c : CacheDB) (be : SharedBackend) (db : BlockchainDb) (a : Nat) :
    Except DatabaseError (Option AccountInfo) :=
  match c.accounts.find? a with
  | some acc => Except.ok (some acc.info)
  | none => (be.basicFetch db a).map (fun p => some p.1)

/-- Modelled from the spec: `<CacheDB as Database>::storage` — overlay slot
first; on miss fetch the slot (resolving the account record too when the
address has no overlay entry) and remember it in the overlay. -/
def CacheDB.storage (c : CacheDB) (be : SharedBackend) (db : BlockchainDb) (a i : Nat) :
    Except DatabaseError Nat × CacheDB × BlockchainDb :=
  match c.accounts.find? a with
  | some acc =>
    match acc.storage.find? i with
    | some v => (Except.ok v, c, db)
    | none =>
      match be.storageFetch db a i with
      | Except.error e => (Except.error e, c, db)
      | Except.ok (v, db') =>
        (Except.ok v,
          { c with accounts := c.accounts.insert a { acc with storage := acc.storage.insert i v } },
          db')
  | none =>
    match be.basicFetch db a with
    | Except.error e => (Except.error e, c, db)
    | Except.ok (info, db1) =>
      match be.storageFetch db1 a i with
      | Except.error e => (Except.error e, c, db)
      | Except.ok (v, db2) =>
        (Except.ok v,
          { c with accounts := c.accounts.insert a { info := info, storage := AMap.empty.insert i v } },
          db2)

/-- Modelled from the spec: `<CacheDB as DatabaseRef>::storage` — overlay slot
first, backend fallback, no overlay write. -/
def CacheDB.storageRef (c : CacheDB) (be : SharedBackend) (db : BlockchainDb) (a i : Nat) :
    Except DatabaseError Nat :=
  match c.accounts.find? a with
  | some acc =>
    match acc.storage.find? i with
    | some v => Except.ok v
    | none => (be.storageFetch db a i).map Prod.fst
  | none => (be.storageFetch db a i).map Prod.fst

/-- Modelled from the spec: `<CacheDB as Database>::block_hash` — local block
hashes first; on miss fetch through the backend and remember locally. -/
def CacheDB.block_hash (c : CacheDB) (be : SharedBackend) (db : BlockchainDb) (n : Nat) :
    Except DatabaseError Nat × CacheDB × BlockchainDb :=
  match c.block_hashes.find? n with
  | some h => (Except.ok h, c, db)
  | none =>
    match be.blockHashFetch db n with
    | Except.error e => (Except.error e, c, db)
    | Except.ok (h, db') =>
      (Except.ok h, { c with block_hashes := c.block_hashes.insert n h }, db')

/-- Modelled from the spec: `<CacheDB as DatabaseRef>::block_hash` — the
read-only variant of `CacheDB.block_hash`. -/
def CacheDB.blockHashRef (c : CacheDB) (be : SharedBackend) (db : BlockchainDb) (n : Nat) :
    Except DatabaseError Nat :=
  match c.block_hashes.find? n with
  | some h => Except.ok h
  | none => (be.blockHashFetch db n).map Prod.fst

/-- Modelled from the spec: `<CacheDB as Database>::code_by_hash` — local
contracts first; on miss fetch through the backend and remember locally. -/
def CacheDB.code_by_hash (c : CacheDB) (be : SharedBackend) (h : Nat) :
    Except DatabaseError Nat × CacheDB :=
  match c.contracts.find? h with
  | some code => (Except.ok code, c)
  | none =>
    match be.codeFetch h with
    | Except.error e => (Except.error e, c)
    | Except.ok code => (Except.ok code, { c with contracts := c.contracts.insert h code })

/-- Modelled from the spec: `<CacheDB as DatabaseRef>::code_by_hash` — the
read-only variant of `CacheDB.code_by_hash`. -/
def CacheDB.codeByHashRef (c : CacheDB) (be : SharedBackend) (h : Nat) :
    Except DatabaseError Nat :=
  match c.contracts.find? h with
  | some code => Except.ok code
  | none => be.codeFetch h

/-- A post-execution account state handed to `commit`: the new account record
together with the storage diff of touched slots (iterated in list order). -/
structure Account where
  info : AccountInfo
  storage : List (Nat × Nat)

/-- Modelled from the spec: `CacheDB::commit` for a single changed account —
"overwrites whole accounts (replace, not merge, for touched storage keys
included in the diff)": the account record is replaced and every touched slot
of the diff overwrites the overlay slot. -/
def CacheDB.commitOne (c : CacheDB) (a : Nat) (acc : Account) : CacheDB :=
  let oldStorage :=
    match c.accounts.find? a with
    | some dba => dba.storage
    | none => AMap.empty
  let newStorage := acc.storage.foldl (fun m kv => m.insert kv.1 kv.2) oldStorage
  { c with accounts := c.accounts.insert a { info := acc.info, storage := newStorage } }

/-- Modelled from the spec: `CacheDB::commit` — applies a batch of
post-execution account states to the overlay only. -/
def CacheDB.commit (c : CacheDB) (changes : List (Nat × Account)) : CacheDB :=
  changes.foldl (fun acc p => acc.commitOne p.1 p.2) c

/-- `Snapshots<T>` of `forked_db.rs`: the registry of all snapshots, a map from
snapshot id to snapshot plus the monotonically increasing next-id counter. -/
structure Snapshots (T : Type) where
  id : Nat
  snapshots : AMap Nat T

/-- `<Snapshots as Default>::default`: empty store, next id `0`. -/
def Snapshots.empty {T : Type} : Snapshots T := { id := 0, snapshots := AMap.empty }

/-- `Snapshots::next_id`: returns the current counter and advances it with
`saturating_add(U256::one())`. -/
def Snapshots.next_id {T : Type} (s : Snapshots T) : Nat × Snapshots T :=
  (s.id, { s with id := u256satAdd s.id 1 })

/-- `Snapshots::get`. -/
def Snapshots.get {T : Type} (s : Snapshots T) (id : Nat) : Option T :=
  s.snapshots.find? id

/-- `Snapshots::remove`: removes `id` and cascades forward, removing every id in
the interval `(id, self.id)`.  The cascade's starting point is computed with the
panicking `U256` addition `id + 1`; `none` embeds that panic (it fires exactly
when `id = U256max`). -/
def Snapshots.remove {T : Type} (s : Snapshots T) (id : Nat) :
    Option (Option T × Snapshots T) :=
  let snap := s.snapshots.find? id
  match u256add id 1 with
  | none => none
  | some start =>
    some (snap, { s with snapshots := AMap.eraseRange (s.snapshots.erase id) start (s.id - start) })

/-- `Snapshots::insert`: allocates the next id, stores the snapshot there and
returns the id. -/
def Snapshots.insert {T : Type} (s : Snapshots T) (t : T) : Nat × Snapshots T :=
  let p := s.next_id
  (p.1, { p.2 with snapshots := p.2.snapshots.insert p.1 t })

/-- Runs `n` consecutive `Snapshots::insert` calls of the same value. -/
def Snapshots.insertIter {T : Type} (s : Snapshots T) (t : T) : Nat → Snapshots T
  | 0 => s
  | n + 1 => ((Snapshots.insertIter s t n).insert t).2

/-- One call against the snapshot store: an insert or a (cascading) remove.
A remove whose internal `U256` addition would panic leaves the store as is
(the process aborts; no later operation of the trace is reachable). -/
inductive SnapOp (T : Type) where
  | ins (t : T)
  | rem (id : Nat)

/-- Applies one store operation. -/
def Snapshots.applyOp {T : Type} (s : Snapshots T) : SnapOp T → Snapshots T
  | SnapOp.ins t => (s.insert t).2
  | SnapOp.rem id =>
    match s.remove id with
    | none => s
    | some p => p.2

/-- Applies a trace of store operations, oldest first. -/
def Snapshots.applyOps {T : Type} (s : Snapshots T) (ops : List (SnapOp T)) : Snapshots T :=
  ops.foldl Snapshots.applyOp s

/-- The ids handed out by the inserts of a trace, in trace order. -/
def Snapshots.traceIds {T : Type} (s : Snapshots T) : List (SnapOp T) → List Nat
  | [] => []
  | SnapOp.ins t :: ops => (s.insert t).1 :: ((s.insert t).2.traceIds ops)
  | SnapOp.rem id :: ops => (s.applyOp (SnapOp.rem id)).traceIds ops

/-- `ForkDbSnapshot`: a captured snapshot — the deep copy of the local overlay
plus the copies of the RemoteCache's three maps. -/
structure ForkDbSnapshot where
  localDb : CacheDB
  snapshot : StateSnapshot

/-- `ForkDbSnapshot::get_storage`: reads the slot from the captured overlay's
account map. -/
def ForkDbSnapshot.get_storage (s : ForkDbSnapshot) (a i : Nat) : Option Nat :=
  (s.localDb.accounts.find? a).bind (fun account => account.storage.find? i)

/-- `<ForkDbSnapshot as DatabaseRef>::basic` (lines 235-247): captured overlay
first, then the captured RemoteCache accounts, then the local overlay's own
read-only fallback. -/
def ForkDbSnapshot.basicRef (s : ForkDbSnapshot) (be : SharedBackend) (db : BlockchainDb)
    (a : Nat) : Except DatabaseError (Option AccountInfo) :=
  match s.localDb.accounts.find? a with
  | some account => Except.ok (some account.info)
  | none =>
    match s.snapshot.accounts.find? a with
    | some acc => Except.ok (some acc)
    | none => s.localDb.basicRef be db a

/-- `<ForkDbSnapshot as DatabaseRef>::storage` (lines 253-267), matching the
source's branch structure exactly: overlay-account slot, then `get_storage`,
then the local overlay's read-only fallback. -/
def ForkDbSnapshot.storageRef (s : ForkDbSnapshot) (be : SharedBackend) (db : BlockchainDb)
    (a i : Nat) : Except DatabaseError Nat :=
  match s.localDb.accounts.find? a with
  | some account =>
    match account.storage.find? i with
    | some entry => Except.ok entry
    | none =>
      match s.get_storage a i with
      | none => s.localDb.storageRef be db a i
      | some storage => Except.ok storage
  | none =>
    match s.get_storage a i with
    | none => s.localDb.storageRef be db a i
    | some storage => Except.ok storage

/-- `<ForkDbSnapshot as DatabaseRef>::block_hash` (lines 269-274): the captured
block hashes first, then the local overlay's read-only fallback. -/
def ForkDbSnapshot.blockHashRef (s : ForkDbSnapshot) (be : SharedBackend) (db : BlockchainDb)
    (n : Nat) : Except DatabaseError Nat :=
  match s.snapshot.block_hashes.find? n with
  | none => s.localDb.blockHashRef be db n
  | some block_hash => Except.ok block_hash

/-- `ForkedDatabase`: the façade composing the backend handle, the local
overlay (`cache_db`), the shared RemoteCache (`db`) and the snapshot store. -/
structure ForkedDatabase where
  backend : SharedBackend
  cache_db : CacheDB
  db : BlockchainDb
  snapshots : Snapshots ForkDbSnapshot

/-- `ForkedDatabase::new`: fresh overlay, given backend and RemoteCache, empty
snapshot store. -/
def ForkedDatabase.new (be : SharedBackend) (db : BlockchainDb) : ForkedDatabase :=
  { backend := be, cache_db := CacheDB.new, db := db, snapshots := Snapshots.empty }

/-- `ForkedDatabase::reset`: re-pins the backend (propagating its error before
any local state is touched), then wipes the RemoteCache's three maps and
replaces the overlay with a fresh `CacheDB`.  The snapshot store is not
cleared. -/
def ForkedDatabase.reset (fd : ForkedDatabase) (block : Nat) :
    Except String Unit × ForkedDatabase :=
  match fd.backend.set_pinned_block block with
  | Except.error e => (Except.error e, fd)
  | Except.ok be' =>
    (Except.ok (),
      { backend := be'
        cache_db := CacheDB.new
        db := { accounts := AMap.empty, storage := AMap.empty, block_hashes := AMap.empty }
        snapshots := fd.snapshots })

/-- `ForkedDatabase::create_snapshot`: deep-copies the RemoteCache's three maps
and the overlay into a `ForkDbSnapshot`; the live database is untouched. -/
def ForkedDatabase.create_snapshot (fd : ForkedDatabase) : ForkDbSnapshot :=
  { localDb := fd.cache_db
    snapshot :=
      { accounts := fd.db.accounts
        storage := fd.db.storage
        block_hashes := fd.db.block_hashes } }

/-- `ForkedDatabase::insert_snapshot`: captures a snapshot, registers it and
returns its id. -/
def ForkedDatabase.insert_snapshot (fd : ForkedDatabase) : Nat × ForkedDatabase :=
  let p := fd.snapshots.insert fd.create_snapshot
  (p.1, { fd with snapshots := p.2 })

/-- `ForkedDatabase::revert_snapshot`: removes `id` (with forward cascade) from
the store; when a snapshot was stored there, clears the RemoteCache's three
maps and repopulates them from the snapshot's copies (`clear` + `extend`),
replaces the overlay wholesale with the snapshot's overlay copy and returns
`true`; otherwise returns `false`.  `none` embeds the `U256` overflow panic
inside `Snapshots::remove`. -/
def ForkedDatabase.revert_snapshot (fd : ForkedDatabase) (id : Nat) :
    Option (Bool × ForkedDatabase) :=
  match fd.snapshots.remove id with
  | none => none
  | some (osnap, snaps') =>
    match osnap with
    | some snap =>
      some (true,
        { fd with
          snapshots := snaps'
          db :=
            { accounts := AMap.extend AMap.empty snap.snapshot.accounts
              storage := AMap.extend AMap.empty snap.snapshot.storage
              block_hashes := AMap.extend AMap.empty snap.snapshot.block_hashes }
          cache_db := snap.localDb })
    | none => some (false, { fd with snapshots := snaps' })

/-- `<ForkedDatabase as Database>::basic` (delegates to the overlay's mutable
query, threading the shared RemoteCache). -/
def ForkedDatabase.basic (fd : ForkedDatabase) (a : Nat) :
    Except DatabaseError (Option AccountInfo) × ForkedDatabase :=
  match fd.cache_db.basic fd.backend fd.db a with
  | (r, c', db') => (r, { fd with cache_db := c', db := db' })

/-- `<ForkedDatabase as Database>::storage`. -/
def ForkedDatabase.storage (fd : ForkedDatabase) (a i : Nat) :
    Except DatabaseError Nat × ForkedDatabase :=
  match fd.cache_db.storage fd.backend fd.db a i with
  | (r, c', db') => (r, { fd with cache_db := c', db := db' })

/-- `<ForkedDatabase as Database>::block_hash`. -/
def ForkedDatabase.block_hash (fd : ForkedDatabase) (n : Nat) :
    Except DatabaseError Nat × ForkedDatabase :=
  match fd.cache_db.block_hash fd.backend fd.db n with
  | (r, c', db') => (r, { fd with cache_db := c', db := db' })

/-- `<ForkedDatabase as Database>::code_by_hash`. -/
def ForkedDatabase.code_by_hash (fd : ForkedDatabase) (h : Nat) :
    Except DatabaseError Nat × ForkedDatabase :=
  match fd.cache_db.code_by_hash fd.backend h with
  | (r, c') => (r, { fd with cache_db := c' })

/-- `<ForkedDatabase as DatabaseRef>::basic`. -/
def ForkedDatabase.basicRef (fd : ForkedDatabase) (a : Nat) :
    Except DatabaseError (Option AccountInfo) :=
  fd.cache_db.basicRef fd.backend fd.db a

/-- `<ForkedDatabase as DatabaseRef>::storage`. -/
def ForkedDatabase.storageRef (fd : ForkedDatabase) (a i : Nat) :
    Except DatabaseError Nat :=
  fd.cache_db.storageRef fd.backend fd.db a i

/-- `<ForkedDatabase as DatabaseRef>::block_hash`. -/
def ForkedDatabase.blockHashRef (fd : ForkedDatabase) (n : Nat) :
    Except DatabaseError Nat :=
  fd.cache_db.blockHashRef fd.backend fd.db n

/-- `<ForkedDatabase as DatabaseRef>::code_by_hash`. -/
def ForkedDatabase.codeByHashRef (fd : ForkedDatabase) (h : Nat) :
    Except DatabaseError Nat :=
  fd.cache_db.codeByHashRef fd.backend h

/-- `<ForkedDatabase as DatabaseCommit>::commit`: applies the batch to the
overlay only. -/
def ForkedDatabase.commit (fd : ForkedDatabase) (changes : List (Nat × Account)) :
    ForkedDatabase :=
  { fd with cache_db := fd.cache_db.commit changes }

/-- A later operation on the live database: a commit or a fetch-through read. -/
inductive FdOp where
  | commitOp (changes : List (Nat × Account))
  | readAccount (a : Nat)
  | readStorage (a i : Nat)
  | readCode (h : Nat)
  | readBlockHash (n : Nat)

/-- Applies one live-database operation. -/
def ForkedDatabase.applyOp (fd : ForkedDatabase) : FdOp → ForkedDatabase
  | FdOp.commitOp changes => fd.commit changes
  | FdOp.readAccount a => (fd.basic a).2
  | FdOp.readStorage a i => (fd.storage a i).2
  | FdOp.readCode h => (fd.code_by_hash h).2
  | FdOp.readBlockHash n => (fd.block_hash n).2

/-- Applies a sequence of commits and fetch-through reads, oldest first. -/
def ForkedDatabase.applyOps (fd : ForkedDatabase) (ops : List FdOp) : ForkedDatabase :=
  ops.foldl ForkedDatabase.applyOp fd

/-- Runs `n` consecutive `insert_snapshot` calls. -/
def ForkedDatabase.insertIter (fd : ForkedDatabase) : Nat → ForkedDatabase
  | 0 => fd
  | n + 1 => ((ForkedDatabase.insertIter fd n).insert_snapshot).2

/-- The exact-restore property of `revert_snapshot` at a stored snapshot
`snap` under id `id`: the call returns `true`; the overlay is replaced
wholesale by the snapshot's overlay copy; the RemoteCache's three maps equal
the snapshot's copies (cleared then repopulated, not merged); and afterwards
every key present at capture time — in the captured overlay or, failing that,
in the captured RemoteCache — resolves to its captured value. -/
def RevertRestoresExactly (fd : ForkedDatabase) (id : Nat) (snap : ForkDbSnapshot) : Prop :=
  ∃ fd', fd.revert_snapshot id = some (true, fd') ∧
    fd'.cache_db = snap.localDb ∧
    fd'.db.accounts = snap.snapshot.accounts ∧
    fd'.db.storage = snap.snapshot.storage ∧
    fd'.db.block_hashes = snap.snapshot.block_hashes ∧
    (∀ a acc, snap.localDb.accounts.find? a = some acc →
      fd'.basicRef a = Except.ok (some acc.info)) ∧
    (∀ a info, snap.localDb.accounts.find? a = none →
      snap.snapshot.accounts.find? a = some info →
      fd'.basicRef a = Except.ok (some info)) ∧
    (∀ a acc i v, snap.localDb.accounts.find? a = some acc → acc.storage.find? i = some v →
      fd'.storageRef a i = Except.ok v) ∧
    (∀ a i st v, (snap.localDb.accounts.find? a).bind (fun acc => acc.storage.find? i) = none →
      snap.snapshot.storage.find? a = some st → st.find? i = some v →
      fd'.storageRef a i = Except.ok v) ∧
    (∀ n h, snap.localDb.block_hashes.find? n = some h →
      fd'.blockHashRef n = Except.ok h) ∧
    (∀ n h, snap.localDb.block_hashes.find? n = none →
      snap.snapshot.block_hashes.find? n = some h →
      fd'.blockHashRef n = Except.ok h)

/-- Agreement of the mutable (fetch-and-cache) and read-only query variants on
already-materialized data: for data resident in the overlay the two variants
return identical results and the mutable variant does not change the database;
for accounts and block hashes resident only in the RemoteCache the results are
still identical; and for a storage slot resident only in the RemoteCache the
results are identical whenever the slot's account record is itself resident
(overlay or RemoteCache) or the transport is available — the one remaining
case, account resident nowhere with the transport down, is where the two
variants genuinely disagree (see the counterexample). -/
def MutRefAgree (fd : ForkedDatabase) : Prop :=
  (∀ a acc, fd.cache_db.accounts.find? a = some acc →
    (fd.basic a).1 = fd.basicRef a ∧ (fd.basic a).2 = fd) ∧
  (∀ a info, fd.cache_db.accounts.find? a = none → fd.db.accounts.find? a = some info →
    (fd.basic a).1 = fd.basicRef a) ∧
  (∀ a acc i v, fd.cache_db.accounts.find? a = some acc → acc.storage.find? i = some v →
    (fd.storage a i).1 = fd.storageRef a i ∧ (fd.storage a i).2 = fd) ∧
  (∀ h code, fd.cache_db.contracts.find? h = some code →
    (fd.code_by_hash h).1 = fd.codeByHashRef h ∧ (fd.code_by_hash h).2 = fd) ∧
  (∀ n hs, fd.cache_db.block_hashes.find? n = some hs →
    (fd.block_hash n).1 = fd.blockHashRef n ∧ (fd.block_hash n).2 = fd) ∧
  (∀ n hs, fd.cache_db.block_hashes.find? n = none → fd.db.block_hashes.find? n = some hs →
    (fd.block_hash n).1 = fd.blockHashRef n) ∧
  (∀ a acc i v, fd.cache_db.accounts.find? a = some acc → acc.storage.find? i = none →
    (fd.db.storage.find? a).bind (fun s => s.find? i) = some v →
    (fd.storage a i).1 = fd.storageRef a i) ∧
  (∀ a i v, fd.cache_db.accounts.find? a = none →
    (fd.db.storage.find? a).bind (fun s => s.find? i) = some v →
    ((fd.db.accounts.find? a).isSome ∨ fd.backend.available = true) →
    (fd.storage a i).1 = fd.storageRef a i)

/-- The id-allocation discipline of the snapshot store: ids start at `0`, each
insert hands out the current counter and advances it saturatingly (never
wrapping, never failing), removal never lowers the counter, and along any
trace of inserts and removes whose final counter is still below `U256max` the
handed-out ids are pairwise strictly increasing (hence never reused). -/
def IdAllocationSpec (T : Type) (s : Snapshots T) (t : T) (id0 : Nat)
    (ops : List (SnapOp T)) : Prop :=
  (Snapshots.empty : Snapshots T).id = 0 ∧
  ((Snapshots.empty : Snapshots T).insert t).1 = 0 ∧
  (s.insert t).1 = s.id ∧
  ((s.insert t).2).id = u256satAdd s.id 1 ∧
  ((s.insert t).2).id ≤ U256max ∧
  (∀ r s', s.remove id0 = some (r, s') → s'.id = s.id) ∧
  ((Snapshots.applyOps s ops).id < U256max →
    List.Pairwise (· < ·) (Snapshots.traceIds s ops))

/-! ### Concrete states used by witnesses and counterexamples -/

/-- A concrete backend: transport available, pinning succeeds exactly for
blocks below `100`, every remote answer defaulted. -/
def be0 : SharedBackend :=
  { pinned := 0
    pinOk := fun b => decide (b < 100)
    available := true
    remoteAccounts := fun _ _ => { balance := 0, nonce := 0, codeHash := 0 }
    remoteStorage := fun _ _ _ => 0
    remoteBlockHash := fun _ _ => 0
    remoteCode := fun _ => 0 }

/-- An empty RemoteCache. -/
def db0 : BlockchainDb := { accounts := AMap.empty, storage := AMap.empty, block_hashes := AMap.empty }

/-- A fresh forked database over `be0` and `db0`. -/
def fd0 : ForkedDatabase := ForkedDatabase.new be0 db0

/-- A RemoteCache with one account, one storage slot and one block hash. -/
def dbW : BlockchainDb :=
  { accounts := AMap.empty.insert 4 { balance := 7, nonce := 1, codeHash := 0 }
    storage := AMap.empty.insert 4 (AMap.empty.insert 1 11)
    block_hashes := AMap.empty.insert 5 77 }

/-- A concrete overlay account holding balance `10` and slot `2 ↦ 5`. -/
def accW1 : DbAccount :=
  { info := { balance := 10, nonce := 0, codeHash := 0 }, storage := AMap.empty.insert 2 5 }

/-- An overlay with one account, one contract and one block hash materialized. -/
def cacheW : CacheDB :=
  { accounts := AMap.empty.insert 1 accW1
    contracts := AMap.empty.insert 7 42
    block_hashes := AMap.empty.insert 3 9 }

/-- A database with data resident in both the overlay and the RemoteCache. -/
def fdW8 : ForkedDatabase :=
  { backend := be0, cache_db := cacheW, db := dbW, snapshots := Snapshots.empty }

/-- `fdW8` right after `insert_snapshot` (snapshot id `0`). -/
def fdC2 : ForkedDatabase := (fdW8.insert_snapshot).2

/-- The snapshot captured from `fdW8`. -/
def snapW : ForkDbSnapshot := fdW8.create_snapshot

/-- `fd0` after three consecutive `insert_snapshot` calls (ids `0`, `1`, `2`). -/
def fdW3 : ForkedDatabase :=
  ((((fd0.insert_snapshot).2).insert_snapshot).2.insert_snapshot).2

/-- `fd0` after `2^256` consecutive `insert_snapshot` calls: the id counter has
saturated and the last snapshot was stored under id `U256max`. -/
def fdBig : ForkedDatabase := fd0.insertIter (2 ^ 256)

/-- An id-`Nat`-valued snapshot store after `2^256` inserts: the counter has
saturated at `U256max`. -/
def sBig : Snapshots Nat := Snapshots.insertIter Snapshots.empty 0 (2 ^ 256)

/-- The backend `be0` with the transport down. -/
def beDown : SharedBackend := { be0 with available := false }

/-- A RemoteCache caching only the storage slot `(6, 2) ↦ 33` — no account
record for address `6` is cached. -/
def dbS : BlockchainDb :=
  { accounts := AMap.empty
    storage := AMap.empty.insert 6 (AMap.empty.insert 2 33)
    block_hashes := AMap.empty }

/-- A database whose RemoteCache holds slot `(6, 2)` while address `6`'s
account record is resident nowhere and the transport is down. -/
def fdS : ForkedDatabase :=
  { backend := beDown, cache_db := CacheDB.new, db := dbS, snapshots := Snapshots.empty }

/-! ## Basic lemmas about the map embedding and the snapshot store -/

theorem AMap.eraseRange_find? {V : Type} (n : Nat) (m : AMap Nat V) (start k : Nat) :
    (AMap.eraseRange m start n).find? k =
      if start ≤ k ∧ k < start + n then none else m.find? k := by
  induction n generalizing m start with
  | zero =>
    have h : ¬(start ≤ k ∧ k < start + 0) := by omega
    simp only [AMap.eraseRange, if_neg h]
  | succ n ih =>
    simp only [AMap.eraseRange]
    rw [ih]
    simp only [AMap.find?, AMap.erase]
    split_ifs <;> first | rfl | omega

theorem Snapshots.remove_eq {T : Type} (s : Snapshots T) (id : Nat) (hmax : id < U256max) :
    s.remove id = some (s.snapshots.find? id,
      { s with snapshots := AMap.eraseRange (s.snapshots.erase id) (id + 1) (s.id - (id + 1)) }) := by
  unfold Snapshots.remove u256add
  rw [if_pos (by omega)]

/-- When `id` holds a snapshot and the panicking cascade start `id + 1` does not
overflow, `revert_snapshot` takes the restore branch. -/
theorem ForkedDatabase.revert_present (fd : ForkedDatabase) (id : Nat) (snap : ForkDbSnapshot)
    (h : fd.snapshots.get id = some snap) (hmax : id < U256max) :
    fd.revert_snapshot id = some (true,
      { fd with
        snapshots :=
          { fd.snapshots with
            snapshots :=
              AMap.eraseRange (fd.snapshots.snapshots.erase id) (id + 1)
                (fd.snapshots.id - (id + 1)) }
        db :=
          { accounts := AMap.extend AMap.empty snap.snapshot.accounts
            storage := AMap.extend AMap.empty snap.snapshot.storage
            block_hashes := AMap.extend AMap.empty snap.snapshot.block_hashes }
        cache_db := snap.localDb }) := by
  unfold ForkedDatabase.revert_snapshot
  rw [Snapshots.remove_eq fd.snapshots id hmax,
    show fd.snapshots.snapshots.find? id = some snap from h]

/-- When `id` holds no snapshot and the cascade start does not overflow,
`revert_snapshot` returns `false` (the cascade still runs on the store). -/
theorem ForkedDatabase.revert_absent (fd : ForkedDatabase) (id : Nat)
    (h : fd.snapshots.get id = none) (hmax : id < U256max) :
    fd.revert_snapshot id = some (false,
      { fd with
        snapshots :=
          { fd.snapshots with
            snapshots :=
              AMap.eraseRange (fd.snapshots.snapshots.erase id) (id + 1)
                (fd.snapshots.id - (id + 1)) } }) := by
  unfold ForkedDatabase.revert_snapshot
  rw [Snapshots.remove_eq fd.snapshots id hmax,
    show fd.snapshots.snapshots.find? id = none from h]

/-- C1: reverting to a snapshot id deletes that snapshot and cascades over every
strictly greater id ever allocated, so after snapshots with ids `t1 < t2 < t3`
are inserted and `revert_snapshot t1` succeeds, a subsequent
`revert_snapshot t2` or `revert_snapshot t3` returns `false`. -/
theorem revert_cascade_removes_later (fd : ForkedDatabase) (t1 t2 t3 : Nat)
    (h12 : t1 < t2) (h23 : t2 < t3) (h3 : t3 < fd.snapshots.id)
    (hmax : fd.snapshots.id ≤ U256max)
    (hp : (fd.snapshots.get t1).isSome) :
    ∃ fd', fd.revert_snapshot t1 = some (true, fd') ∧
      (∃ fd2, fd'.revert_snapshot t2 = some (false, fd2)) ∧
      (∃ fd3, fd'.revert_snapshot t3 = some (false, fd3)) := by
  obtain ⟨snap, hsnap⟩ := Option.isSome_iff_exists.mp hp
  refine ⟨_, ForkedDatabase.revert_present fd t1 snap hsnap (by omega), ?_, ?_⟩
  · refine ⟨_, ForkedDatabase.revert_absent _ t2 ?_ (by omega)⟩
    simp only [Snapshots.get, AMap.eraseRange_find?]
    rw [if_pos ⟨by omega, by omega⟩]
  · refine ⟨_, ForkedDatabase.revert_absent _ t3 ?_ (by omega)⟩
    simp only [Snapshots.get, AMap.eraseRange_find?]
    rw [if_pos ⟨by omega, by omega⟩]

theorem AMap.find?_insert_self {K V : Type} [DecidableEq K] (m : AMap K V) (k : K) (v : V) :
    (m.insert k v).find? k = some v := by
  simp [AMap.insert, AMap.find?]

theorem AMap.extend_empty {K V : Type} (src : AMap K V) :
    AMap.extend AMap.empty src = src := by
  funext q
  unfold AMap.extend AMap.empty
  cases src q <;> rfl

theorem u256add_max_one : u256add U256max 1 = none := by
  have h : 0 < 2 ^ 256 := pow_pos (by norm_num) 256
  unfold u256add U256max
  rw [if_neg (by omega)]

theorem Snapshots.remove_max {T : Type} (s : Snapshots T) : s.remove U256max = none := by
  simp only [Snapshots.remove, u256add_max_one]

theorem ForkedDatabase.revert_max (fd : ForkedDatabase) :
    fd.revert_snapshot U256max = none := by
  simp only [ForkedDatabase.revert_snapshot, Snapshots.remove_max]

theorem revert_cascade_removes_later_witness :
    (fdW3.snapshots.get 0).isSome ∧
    (∃ fd', fdW3.revert_snapshot 0 = some (true, fd') ∧
      (∃ fd2, fd'.revert_snapshot 1 = some (false, fd2)) ∧
      (∃ fd3, fd'.revert_snapshot 2 = some (false, fd3))) :=
  ⟨by rfl,
    revert_cascade_removes_later fdW3 0 1 2 (by norm_num) (by norm_num)
      (by decide) (by decide) (by rfl)⟩

/-- C3 (amended): for every id strictly below `U256max` that is not present in
the snapshot store, `revert_snapshot` returns `false` and leaves the overlay,
the RemoteCache's three maps and the backend unchanged.  (At `id = U256max`
the claim fails: the cascade's `U256` addition `id + 1` panics.) -/
theorem revert_missing_is_noop (fd : ForkedDatabase) (id : Nat)
    (h : fd.snapshots.get id = none) (hmax : id < U256max) :
    ∃ fd', fd.revert_snapshot id = some (false, fd') ∧
      fd'.cache_db = fd.cache_db ∧ fd'.db = fd.db ∧ fd'.backend = fd.backend :=
  ⟨_, ForkedDatabase.revert_absent fd id h hmax, rfl, rfl, rfl⟩

theorem revert_missing_is_noop_witness :
    fd0.snapshots.get 5 = none ∧ (5 : Nat) < U256max ∧
    (∃ fd', fd0.revert_snapshot 5 = some (false, fd') ∧
      fd'.cache_db = fd0.cache_db ∧ fd'.db = fd0.db ∧ fd'.backend = fd0.backend) :=
  ⟨rfl, by norm_num [U256max], revert_missing_is_noop fd0 5 rfl (by norm_num [U256max])⟩

/-- C3 counterexample: `U256max` is a valid id that is not present in the fresh
store, yet `revert_snapshot fd0 U256max` is not a defined no-op returning
`false` — it hits the panicking `U256` addition `id + 1` inside
`Snapshots::remove` (embedded as `none`) before anything else happens. -/
theorem revert_missing_panics_at_max :
    fd0.snapshots.get U256max = none ∧ fd0.revert_snapshot U256max = none :=
  ⟨rfl, ForkedDatabase.revert_max fd0⟩

theorem ForkedDatabase.insert_snapshot_id (fd : ForkedDatabase) :
    ((fd.insert_snapshot).2).snapshots.id = u256satAdd fd.snapshots.id 1 := rfl

theorem ForkedDatabase.insertIter_id (fd : ForkedDatabase) (n : Nat)
    (h : fd.snapshots.id ≤ U256max) :
    (fd.insertIter n).snapshots.id = min (fd.snapshots.id + n) U256max := by
  induction n with
  | zero =>
    show fd.snapshots.id = min (fd.snapshots.id + 0) U256max
    omega
  | succ n ih =>
    show (((fd.insertIter n).insert_snapshot).2).snapshots.id = min (fd.snapshots.id + (n + 1)) U256max
    rw [ForkedDatabase.insert_snapshot_id, ih]
    unfold u256satAdd
    omega

/-- C2 (amended): for every snapshot stored under an id strictly below
`U256max`, `revert_snapshot` returns `true`, replaces the overlay wholesale by
the snapshot's overlay copy, makes the RemoteCache's three maps equal to the
snapshot's copies (cleared then repopulated, not merged), and afterwards every
key present at capture time resolves to its captured value.  (At
`id = U256max` — reachable only after `2^256` inserts — the claim fails: the
cascade's `U256` addition panics.) -/
theorem revert_restores_exactly (fd : ForkedDatabase) (id : Nat) (snap : ForkDbSnapshot)
    (h : fd.snapshots.get id = some snap) (hmax : id < U256max) :
    RevertRestoresExactly fd id snap := by
  refine ⟨_, ForkedDatabase.revert_present fd id snap h hmax, rfl,
    AMap.extend_empty _, AMap.extend_empty _, AMap.extend_empty _,
    ?_, ?_, ?_, ?_, ?_, ?_⟩
  · intro a acc ha
    simp only [ForkedDatabase.basicRef, CacheDB.basicRef, ha]
  · intro a info ha hinfo
    simp only [ForkedDatabase.basicRef, CacheDB.basicRef, ha, SharedBackend.basicFetch,
      AMap.extend_empty, hinfo, Except.map]
  · intro a acc i v ha hv
    simp only [ForkedDatabase.storageRef, CacheDB.storageRef, ha, hv]
  · intro a i st v hb hst hv
    rcases hacc : snap.localDb.accounts.find? a with _ | acc
    · simp only [ForkedDatabase.storageRef, CacheDB.storageRef, hacc,
        SharedBackend.storageFetch, AMap.extend_empty, hst, hv, Except.map]
    · rw [hacc] at hb
      simp only [Option.bind] at hb
      simp only [ForkedDatabase.storageRef, CacheDB.storageRef, hacc, hb,
        SharedBackend.storageFetch, AMap.extend_empty, hst, hv, Except.map]
  · intro n hh hbh
    simp only [ForkedDatabase.blockHashRef, CacheDB.blockHashRef, hbh]
  · intro n hh h1 h2
    simp only [ForkedDatabase.blockHashRef, CacheDB.blockHashRef, h1,
      SharedBackend.blockHashFetch, AMap.extend_empty, h2, Except.map]

theorem revert_restores_exactly_witness :
    fdC2.snapshots.get 0 = some snapW ∧ (0 : Nat) < U256max ∧
    RevertRestoresExactly fdC2 0 snapW :=
  ⟨rfl, by norm_num [U256max], revert_restores_exactly fdC2 0 snapW rfl (by norm_num [U256max])⟩

/-- C2 counterexample: after `2^256` inserts the id counter has saturated and a
snapshot is stored under id `U256max`, yet `revert_snapshot` at that stored id
does not restore-and-return-`true`: it hits the panicking `U256` addition
`id + 1` inside `Snapshots::remove` (embedded as `none`). -/
theorem fdBig_stored_at_max : (fdBig.snapshots.get U256max).isSome := by
  have hx : 0 < 2 ^ 256 := pow_pos (by norm_num) 256
  obtain ⟨m, e⟩ : ∃ m, (2 : Nat) ^ 256 = m + 1 := ⟨2 ^ 256 - 1, by omega⟩
  have hpred : (fd0.insertIter m).snapshots.id = U256max := by
    rw [ForkedDatabase.insertIter_id fd0 m (Nat.zero_le _)]
    show min (0 + m) U256max = U256max
    unfold U256max
    omega
  show ((fd0.insertIter (2 ^ 256)).snapshots.get U256max).isSome = true
  rw [e]
  have hget : (fd0.insertIter (m + 1)).snapshots.get U256max
      = ((fd0.insertIter m).snapshots.snapshots.insert
          ((fd0.insertIter m).snapshots.id)
          ((fd0.insertIter m).create_snapshot)).find? U256max := rfl
  rw [hget, hpred, AMap.find?_insert_self]
  rfl

theorem revert_stored_at_max_panics :
    (fdBig.snapshots.get U256max).isSome ∧ fdBig.revert_snapshot U256max = none :=
  ⟨fdBig_stored_at_max, ForkedDatabase.revert_max fdBig⟩

theorem ForkedDatabase.applyOp_snapshots (fd : ForkedDatabase) (op : FdOp) :
    (fd.applyOp op).snapshots = fd.snapshots := by
  cases op <;> rfl

theorem ForkedDatabase.applyOps_snapshots (fd : ForkedDatabase) (ops : List FdOp) :
    (fd.applyOps ops).snapshots = fd.snapshots := by
  induction ops generalizing fd with
  | nil => rfl
  | cons op ops ih =>
    show ((fd.applyOp op).applyOps ops).snapshots = fd.snapshots
    rw [ih, ForkedDatabase.applyOp_snapshots]

/-- C4: snapshot capture is a pure deep copy with no side effect on the live
database (registering it changes only the snapshot store), and the stored
snapshot is independent of the live database: after any sequence of later
commits and fetch-through reads, the stored entry is still exactly the capture
of the original state. -/
theorem snapshot_independence (fd : ForkedDatabase) (ops : List FdOp) :
    ((fd.insert_snapshot).2).cache_db = fd.cache_db ∧
    ((fd.insert_snapshot).2).db = fd.db ∧
    ((fd.insert_snapshot).2).backend = fd.backend ∧
    (((fd.insert_snapshot).2).applyOps ops).snapshots.get ((fd.insert_snapshot).1)
      = some fd.create_snapshot := by
  refine ⟨rfl, rfl, rfl, ?_⟩
  rw [ForkedDatabase.applyOps_snapshots]
  show (fd.snapshots.snapshots.insert fd.snapshots.id fd.create_snapshot).find? fd.snapshots.id
    = some fd.create_snapshot
  exact AMap.find?_insert_self _ _ _

/-- C6: `reset` is atomic on failure — when re-pinning the remote source
fails, `reset` returns the underlying error and the database is exactly as
before (overlay, RemoteCache, backend and snapshot store all unchanged);
only when re-pinning succeeds are the RemoteCache's three maps cleared and
the overlay replaced with a fresh empty one. -/
theorem reset_atomic_on_failure (fd : ForkedDatabase) (b : Nat) :
    (fd.backend.pinOk b = false →
      fd.reset b = (Except.error "failed to set pinned block", fd)) ∧
    (fd.backend.pinOk b = true →
      fd.reset b = (Except.ok (),
        { backend := { fd.backend with pinned := b }
          cache_db := CacheDB.new
          db := { accounts := AMap.empty, storage := AMap.empty, block_hashes := AMap.empty }
          snapshots := fd.snapshots })) := by
  constructor <;> intro h <;>
    simp [ForkedDatabase.reset, SharedBackend.set_pinned_block, h]

theorem reset_atomic_on_failure_witness :
    fdW8.backend.pinOk 200 = false ∧
    fdW8.reset 200 = (Except.error "failed to set pinned block", fdW8) :=
  ⟨rfl, (reset_atomic_on_failure fdW8 200).1 rfl⟩

/-- C7: write isolation — after committing `{A ↦ rec}`, querying account `A`
returns exactly the committed record (whatever the remote source would
answer), the query does not change the database, and the commit leaves the
RemoteCache's three maps, the backend and the snapshot store unchanged. -/
theorem commit_write_isolation (fd : ForkedDatabase) (A : Nat) (rec : Account) :
    ((fd.commit [(A, rec)]).basic A).1 = Except.ok (some rec.info) ∧
    ((fd.commit [(A, rec)]).basic A).2 = fd.commit [(A, rec)] ∧
    (fd.commit [(A, rec)]).db = fd.db ∧
    (fd.commit [(A, rec)]).backend = fd.backend ∧
    (fd.commit [(A, rec)]).snapshots = fd.snapshots := by
  refine ⟨?_, ?_, rfl, rfl, rfl⟩ <;>
    simp [ForkedDatabase.commit, CacheDB.commit, CacheDB.commitOne,
      ForkedDatabase.basic, CacheDB.basic, AMap.find?_insert_self]

theorem Snapshots.remove_id_eq {T : Type} (s : Snapshots T) (id0 : Nat) (r : Option T)
    (s' : Snapshots T) (h : s.remove id0 = some (r, s')) : s'.id = s.id := by
  rcases hu : u256add id0 1 with _ | start
  · simp only [Snapshots.remove, hu] at h
    exact Option.noConfusion h
  · simp only [Snapshots.remove, hu, Option.some.injEq, Prod.mk.injEq] at h
    rw [← h.2]

theorem Snapshots.applyOp_rem_id {T : Type} (s : Snapshots T) (id0 : Nat) :
    (s.applyOp (SnapOp.rem id0)).id = s.id := by
  show (match s.remove id0 with | none => s | some p => p.2).id = s.id
  rcases hr : s.remove id0 with _ | ⟨r, s'⟩
  · rfl
  · exact Snapshots.remove_id_eq s id0 r s' hr

theorem Snapshots.applyOp_id_le {T : Type} (s : Snapshots T) (op : SnapOp T)
    (h : s.id ≤ U256max) : s.id ≤ (s.applyOp op).id ∧ (s.applyOp op).id ≤ U256max := by
  cases op with
  | ins t =>
    show s.id ≤ u256satAdd s.id 1 ∧ u256satAdd s.id 1 ≤ U256max
    unfold u256satAdd
    omega
  | rem id0 =>
    rw [Snapshots.applyOp_rem_id]
    exact ⟨le_rfl, h⟩

theorem Snapshots.applyOps_id_le {T : Type} (s : Snapshots T) (ops : List (SnapOp T))
    (h : s.id ≤ U256max) :
    s.id ≤ (s.applyOps ops).id ∧ (s.applyOps ops).id ≤ U256max := by
  induction ops generalizing s with
  | nil => exact ⟨le_rfl, h⟩
  | cons op ops ih =>
    have h1 := Snapshots.applyOp_id_le s op h
    have h2 := ih (s.applyOp op) h1.2
    exact ⟨le_trans h1.1 h2.1, h2.2⟩

theorem Snapshots.traceIds_ge {T : Type} (s : Snapshots T) (ops : List (SnapOp T))
    (h : s.id ≤ U256max) :
    ∀ i ∈ s.traceIds ops, s.id ≤ i := by
  induction ops generalizing s with
  | nil => intro i hi; simp [Snapshots.traceIds] at hi
  | cons op ops ih =>
    cases op with
    | ins t =>
      intro i hi
      simp only [Snapshots.traceIds, List.mem_cons] at hi
      rcases hi with rfl | hi
      · exact le_rfl
      · have h1 : ((s.insert t).2).id ≤ U256max := by
          show u256satAdd s.id 1 ≤ U256max
          unfold u256satAdd
          omega
        have h2 := ih ((s.insert t).2) h1 i hi
        have h3 : ((s.insert t).2).id = u256satAdd s.id 1 := rfl
        unfold u256satAdd at h3
        omega
    | rem id0 =>
      intro i hi
      simp only [Snapshots.traceIds] at hi
      have hid := Snapshots.applyOp_rem_id s id0
      have := ih (s.applyOp (SnapOp.rem id0)) (by rw [hid]; exact h) i hi
      omega

theorem Snapshots.traceIds_pairwise {T : Type} (s : Snapshots T) (ops : List (SnapOp T))
    (h : s.id ≤ U256max) (hfin : (s.applyOps ops).id < U256max) :
    List.Pairwise (· < ·) (s.traceIds ops) := by
  induction ops generalizing s with
  | nil => simp [Snapshots.traceIds]
  | cons op ops ih =>
    cases op with
    | ins t =>
      have hfin' : (((s.insert t).2).applyOps ops).id < U256max := hfin
      have hs : s.id < U256max := by
        by_contra hc
        push_neg at hc
        have hse : ((s.insert t).2).id = U256max := by
          show u256satAdd s.id 1 = U256max
          unfold u256satAdd
          omega
        have h2 := Snapshots.applyOps_id_le ((s.insert t).2) ops (le_of_eq hse)
        omega
      have hid2 : ((s.insert t).2).id = s.id + 1 := by
        show u256satAdd s.id 1 = s.id + 1
        unfold u256satAdd
        omega
      have hle : ((s.insert t).2).id ≤ U256max := by omega
      show List.Pairwise (· < ·) ((s.insert t).1 :: ((s.insert t).2).traceIds ops)
      constructor
      · intro i hi
        have hgei := Snapshots.traceIds_ge ((s.insert t).2) ops hle i hi
        show (s.insert t).1 < i
        have h0 : (s.insert t).1 = s.id := rfl
        omega
      · exact ih ((s.insert t).2) hle hfin'
    | rem id0 =>
      have hid := Snapshots.applyOp_rem_id s id0
      show List.Pairwise (· < ·) ((s.applyOp (SnapOp.rem id0)).traceIds ops)
      exact ih _ (by rw [hid]; exact h) hfin

/-- C5 (amended): snapshot ids are assigned in strictly increasing order
starting at `0`; each insert returns the current counter and advances it with
a saturating (never wrapping, never failing) add; removal never lowers the
counter; and along any trace of inserts and removes whose final counter is
still below `U256max` the handed-out ids are pairwise strictly increasing, so
none is ever reused.  (Once the counter saturates at `U256max` — after `2^256`
inserts — the id `U256max` is handed out again, so the unconditional claim
fails.) -/
theorem snapshot_id_allocation (T : Type) (s : Snapshots T) (t : T) (id0 : Nat)
    (ops : List (SnapOp T)) (h0 : s.id ≤ U256max) :
    IdAllocationSpec T s t id0 ops := by
  refine ⟨rfl, rfl, rfl, rfl, ?_, ?_, ?_⟩
  · show u256satAdd s.id 1 ≤ U256max
    unfold u256satAdd
    omega
  · intro r s' h
    exact Snapshots.remove_id_eq s id0 r s' h
  · intro hfin
    exact Snapshots.traceIds_pairwise s ops h0 hfin

theorem snapshot_id_allocation_witness :
    (Snapshots.empty : Snapshots Nat).id ≤ U256max ∧
    IdAllocationSpec Nat Snapshots.empty 5 0 [SnapOp.ins 1, SnapOp.rem 0, SnapOp.ins 2] :=
  ⟨Nat.zero_le _,
    snapshot_id_allocation Nat Snapshots.empty 5 0 [SnapOp.ins 1, SnapOp.rem 0, SnapOp.ins 2]
      (Nat.zero_le _)⟩

theorem Snapshots.insert_fst {T : Type} (s : Snapshots T) (t : T) :
    (s.insert t).1 = s.id := rfl

theorem Snapshots.insert_snd_id {T : Type} (s : Snapshots T) (t : T) :
    ((s.insert t).2).id = u256satAdd s.id 1 := rfl

theorem Snapshots.insert_find?_self {T : Type} (s : Snapshots T) (t : T) :
    (((s.insert t).2).snapshots).find? s.id = some t :=
  AMap.find?_insert_self s.snapshots s.id t

theorem Snapshots.insertIter_counter {T : Type} (s : Snapshots T) (t : T) (n : Nat)
    (h : s.id ≤ U256max) :
    (Snapshots.insertIter s t n).id = min (s.id + n) U256max := by
  induction n with
  | zero =>
    show s.id = min (s.id + 0) U256max
    omega
  | succ n ih =>
    show ((Snapshots.insertIter s t n).insert t).2.id = min (s.id + (n + 1)) U256max
    rw [show ((Snapshots.insertIter s t n).insert t).2.id
        = u256satAdd (Snapshots.insertIter s t n).id 1 from rfl, ih]
    unfold u256satAdd
    omega

/-- C5 counterexample: after `2^256` inserts the counter has saturated, and the
next two inserts (of two different snapshots `7` and `8`) both return id
`U256max` — the id is not strictly greater than every id returned before, and
`U256max` ends up assigned to the second snapshot after having been assigned to
the first. -/
theorem snapshot_id_reuse_at_saturation :
    (sBig.insert 7).1 = U256max ∧
    (((sBig.insert 7).2).insert 8).1 = U256max ∧
    ((((sBig.insert 7).2).insert 8).2).snapshots.find? U256max = some 8 := by
  have hx : 0 < 2 ^ 256 := pow_pos (by norm_num) 256
  have hBig : sBig.id = U256max := by
    show (Snapshots.insertIter Snapshots.empty 0 (2 ^ 256)).id = U256max
    rw [Snapshots.insertIter_counter Snapshots.empty 0 (2 ^ 256) (Nat.zero_le _)]
    show min (0 + 2 ^ 256) U256max = U256max
    unfold U256max
    omega
  have h2 : ((sBig.insert 7).2).id = U256max := by
    rw [Snapshots.insert_snd_id, hBig]
    unfold u256satAdd
    omega
  refine ⟨?_, ?_, ?_⟩
  · rw [Snapshots.insert_fst]
    exact hBig
  · rw [Snapshots.insert_fst]
    exact h2
  · rw [← h2]
    exact Snapshots.insert_find?_self ((sBig.insert 7).2) 8

/-- C8: the mutable (fetch-and-cache) and read-only query variants use the same
fallback ordering and return identical results whenever the queried account,
storage slot, code hash or block number is already materialized; on an
overlay hit the mutable variant moreover leaves the database unchanged. -/
theorem mut_ref_queries_agree (fd : ForkedDatabase) : MutRefAgree fd := by
  refine ⟨?_, ?_, ?_, ?_, ?_, ?_, ?_, ?_⟩
  · intro a acc ha
    constructor
    · simp only [ForkedDatabase.basic, ForkedDatabase.basicRef, CacheDB.basic,
        CacheDB.basicRef, ha]
    · simp only [ForkedDatabase.basic, CacheDB.basic, ha]
  · intro a info h1 h2
    simp only [ForkedDatabase.basic, ForkedDatabase.basicRef, CacheDB.basic, CacheDB.basicRef,
      h1, SharedBackend.basicFetch, h2, Except.map]
  · intro a acc i v ha hv
    constructor
    · simp only [ForkedDatabase.storage, ForkedDatabase.storageRef, CacheDB.storage,
        CacheDB.storageRef, ha, hv]
    · simp only [ForkedDatabase.storage, CacheDB.storage, ha, hv]
  · intro h code hc
    constructor
    · simp only [ForkedDatabase.code_by_hash, ForkedDatabase.codeByHashRef,
        CacheDB.code_by_hash, CacheDB.codeByHashRef, hc]
    · simp only [ForkedDatabase.code_by_hash, CacheDB.code_by_hash, hc]
  · intro n hs hn
    constructor
    · simp only [ForkedDatabase.block_hash, ForkedDatabase.blockHashRef, CacheDB.block_hash,
        CacheDB.blockHashRef, hn]
    · simp only [ForkedDatabase.block_hash, CacheDB.block_hash, hn]
  · intro n hs h1 h2
    simp only [ForkedDatabase.block_hash, ForkedDatabase.blockHashRef, CacheDB.block_hash,
      CacheDB.blockHashRef, h1, SharedBackend.blockHashFetch, h2, Except.map]
  · intro a acc i v ha hi hbv
    rcases hs : fd.db.storage.find? a with _ | s
    · rw [hs] at hbv
      simp only [Option.bind] at hbv
      exact Option.noConfusion hbv
    · rw [hs] at hbv
      simp only [Option.bind] at hbv
      simp [ForkedDatabase.storage, ForkedDatabase.storageRef, CacheDB.storage,
        CacheDB.storageRef, ha, hi, SharedBackend.storageFetch, hs, hbv, Except.map]
  · intro a i v ha hbv hd
    rcases hs : fd.db.storage.find? a with _ | s
    · rw [hs] at hbv
      simp only [Option.bind] at hbv
      exact Option.noConfusion hbv
    · rw [hs] at hbv
      simp only [Option.bind] at hbv
      rcases hacc : fd.db.accounts.find? a with _ | info
      · rcases hd with hd | hav
        · rw [hacc] at hd
          exact absurd hd (by simp)
        · simp [ForkedDatabase.storage, ForkedDatabase.storageRef, CacheDB.storage,
            CacheDB.storageRef, ha, SharedBackend.basicFetch, hacc, hav,
            SharedBackend.storageFetch, hs, hbv, Except.map]
      · simp [ForkedDatabase.storage, ForkedDatabase.storageRef, CacheDB.storage,
          CacheDB.storageRef, ha, SharedBackend.basicFetch, hacc,
          SharedBackend.storageFetch, hs, hbv, Except.map]

theorem mut_ref_queries_agree_witness :
    fdW8.cache_db.accounts.find? 1 = some accW1 ∧
    ((fdW8.basic 1).1 = fdW8.basicRef 1 ∧ (fdW8.basic 1).2 = fdW8) :=
  ⟨rfl, (mut_ref_queries_agree fdW8).1 1 accW1 rfl⟩

/-- C9: the basic-account query never reports an account as unknown — when the
address is absent from both the overlay and the RemoteCache the result is
still a successful answer carrying the (possibly default) record resolved by
the remote source, and the query fails only on transport error. -/
theorem basic_never_unknown (fd : ForkedDatabase) (a : Nat)
    (h1 : fd.cache_db.accounts.find? a = none)
    (h2 : fd.db.accounts.find? a = none) :
    (fd.basic a).1 ≠ Except.ok none ∧
    (fd.basic a).1 =
      (if fd.backend.available then
        Except.ok (some (fd.backend.remoteAccounts fd.backend.pinned a))
      else Except.error (DatabaseError.getAccount a)) := by
  have hb : (fd.basic a).1 =
      (if fd.backend.available then
        Except.ok (some (fd.backend.remoteAccounts fd.backend.pinned a))
      else Except.error (DatabaseError.getAccount a)) := by
    cases hav : fd.backend.available with
    | false => simp [ForkedDatabase.basic, CacheDB.basic, h1, SharedBackend.basicFetch, h2, hav]
    | true => simp [ForkedDatabase.basic, CacheDB.basic, h1, SharedBackend.basicFetch, h2, hav]
  refine ⟨?_, hb⟩
  rw [hb]
  cases fd.backend.available <;> simp

theorem basic_never_unknown_witness :
    fd0.cache_db.accounts.find? 3 = none ∧ fd0.db.accounts.find? 3 = none ∧
    ((fd0.basic 3).1 ≠ Except.ok none ∧
      (fd0.basic 3).1 =
        (if fd0.backend.available then
          Except.ok (some (fd0.backend.remoteAccounts fd0.backend.pinned 3))
        else Except.error (DatabaseError.getAccount 3))) :=
  ⟨rfl, rfl, basic_never_unknown fd0 3 rfl rfl⟩

/-- C10: the read-only storage query of a captured snapshot never consults the
captured `snapshot.storage` map — when the slot is not found in the snapshot's
overlay copy, the helper `get_storage` re-reads that same overlay map and also
misses, so the result is the local overlay's own fallback chain, whatever the
captured `snapshot.storage` holds for that address and slot. -/
theorem snapshot_storage_ignores_captured (s : ForkDbSnapshot) (be : SharedBackend)
    (db : BlockchainDb) (a i : Nat)
    (h : (s.localDb.accounts.find? a).bind (fun acc => acc.storage.find? i) = none) :
    s.get_storage a i = (s.localDb.accounts.find? a).bind (fun acc => acc.storage.find? i) ∧
    s.storageRef be db a i = s.localDb.storageRef be db a i ∧
    (∀ st, ForkDbSnapshot.storageRef
        { s with snapshot := { s.snapshot with storage := st } } be db a i
      = s.storageRef be db a i) := by
  have hg : s.get_storage a i = none := h
  refine ⟨rfl, ?_, ?_⟩
  · rcases hacc : s.localDb.accounts.find? a with _ | acc
    · simp only [ForkDbSnapshot.storageRef, hacc, hg, CacheDB.storageRef]
    · have hsl : acc.storage.find? i = none := by
        rw [hacc] at h
        simpa using h
      simp only [ForkDbSnapshot.storageRef, hacc, hsl, hg, CacheDB.storageRef]
  · intro st
    rfl

theorem snapshot_storage_ignores_captured_witness :
    (snapW.localDb.accounts.find? 4).bind (fun acc => acc.storage.find? 1) = none ∧
    (snapW.get_storage 4 1
        = (snapW.localDb.accounts.find? 4).bind (fun acc => acc.storage.find? 1) ∧
      snapW.storageRef be0 dbW 4 1 = snapW.localDb.storageRef be0 dbW 4 1 ∧
      (∀ st, ForkDbSnapshot.storageRef
          { snapW with snapshot := { snapW.snapshot with storage := st } } be0 dbW 4 1
        = snapW.storageRef be0 dbW 4 1)) :=
  ⟨rfl, snapshot_storage_ignores_captured snapW be0 dbW 4 1 rfl⟩

theorem ForkedDatabase.insertIter_add (fd : ForkedDatabase) (m n : Nat) :
    fd.insertIter (m + n) = (fd.insertIter m).insertIter n := by
  induction n with
  | zero => rfl
  | succ n ih =>
    show ((fd.insertIter (m + n)).insert_snapshot).2
      = (((fd.insertIter m).insertIter n).insert_snapshot).2
    rw [ih]

theorem ForkedDatabase.insertIter_get_isSome (fd : ForkedDatabase) (n k : Nat)
    (h : (fd.snapshots.get k).isSome) : ((fd.insertIter n).snapshots.get k).isSome := by
  induction n with
  | zero => exact h
  | succ n ih =>
    have e : (((fd.insertIter n).insert_snapshot).2).snapshots.get k
        = ((fd.insertIter n).snapshots.snapshots.insert
            ((fd.insertIter n).snapshots.id) ((fd.insertIter n).create_snapshot)).find? k := rfl
    show ((((fd.insertIter n).insert_snapshot).2).snapshots.get k).isSome
    rw [e]
    simp only [AMap.insert, AMap.find?]
    split
    · rfl
    · exact ih

theorem fdBig_stored_at_0 : (fdBig.snapshots.get 0).isSome := by
  have hx : 0 < 2 ^ 256 := pow_pos (by norm_num) 256
  have h1 : ((fd0.insertIter 1).snapshots.get 0).isSome := rfl
  obtain ⟨m, e⟩ : ∃ m, (2 : Nat) ^ 256 = 1 + m := ⟨2 ^ 256 - 1, by omega⟩
  show ((fd0.insertIter (2 ^ 256)).snapshots.get 0).isSome = true
  rw [e, ForkedDatabase.insertIter_add]
  exact ForkedDatabase.insertIter_get_isSome _ _ _ h1

theorem fdBig_stored_at_1 : (fdBig.snapshots.get 1).isSome := by
  have hx2 : 2 ≤ 2 ^ 256 := by norm_num
  have h1 : ((fd0.insertIter 2).snapshots.get 1).isSome := rfl
  obtain ⟨m, e⟩ : ∃ m, (2 : Nat) ^ 256 = 2 + m := ⟨2 ^ 256 - 2, by omega⟩
  show ((fd0.insertIter (2 ^ 256)).snapshots.get 1).isSome = true
  rw [e, ForkedDatabase.insertIter_add]
  exact ForkedDatabase.insertIter_get_isSome _ _ _ h1

theorem fdBig_counter : fdBig.snapshots.id = U256max := by
  have hx : 0 < 2 ^ 256 := pow_pos (by norm_num) 256
  show (fd0.insertIter (2 ^ 256)).snapshots.id = U256max
  rw [ForkedDatabase.insertIter_id fd0 (2 ^ 256) (Nat.zero_le _)]
  show min (0 + 2 ^ 256) U256max = U256max
  unfold U256max
  omega

/-- C1 counterexample: in the saturated store (after `2^256` inserts) the
snapshots with ids `T1 = 0 < T2 = 1 < T3 = U256max` are all stored and
`revert_snapshot T1` succeeds, but the cascade `while to_revert < self.id`
stops strictly below the counter, so the snapshot at `T3 = U256max` (equal to
the counter) survives, and the subsequent `revert_snapshot T3` hits the
panicking `U256` addition `id + 1` (embedded as `none`) instead of returning
`false`. -/
theorem revert_zero_keeps_max (fd : ForkedDatabase) (snap : ForkDbSnapshot)
    (hc : fd.snapshots.id = U256max)
    (h0 : fd.snapshots.get 0 = some snap)
    (hm : (fd.snapshots.get U256max).isSome) :
    ∃ fd', fd.revert_snapshot 0 = some (true, fd') ∧
      (fd'.snapshots.get U256max).isSome ∧ fd'.revert_snapshot U256max = none := by
  have h1max : 1 ≤ U256max := by norm_num [U256max]
  refine ⟨_, ForkedDatabase.revert_present fd 0 snap h0 (by omega), ?_,
    ForkedDatabase.revert_max _⟩
  simp only [Snapshots.get, AMap.eraseRange_find?, hc]
  rw [if_neg (by omega)]
  simp only [AMap.find?, AMap.erase]
  rw [if_neg (by omega)]
  exact hm

theorem revert_cascade_cex_at_saturation :
    (fdBig.snapshots.get 0).isSome ∧
    (fdBig.snapshots.get 1).isSome ∧
    (fdBig.snapshots.get U256max).isSome ∧
    (∃ fd', fdBig.revert_snapshot 0 = some (true, fd') ∧
      (fd'.snapshots.get U256max).isSome ∧
      fd'.revert_snapshot U256max = none) := by
  refine ⟨fdBig_stored_at_0, fdBig_stored_at_1, fdBig_stored_at_max, ?_⟩
  obtain ⟨snap, hsnap⟩ := Option.isSome_iff_exists.mp fdBig_stored_at_0
  exact revert_zero_keeps_max fdBig snap fdBig_counter hsnap fdBig_stored_at_max

/-- C8 counterexample: a storage slot resident (cached) in the RemoteCache
under an address whose account record is resident nowhere, with the transport
down: the read-only variant returns the cached slot while the mutable variant
must resolve the account record first and propagates the transport error — the
two variants do not return identical results on this already-materialized
slot. -/
theorem mut_ref_storage_disagree :
    fdS.cache_db.accounts.find? 6 = none ∧
    fdS.db.accounts.find? 6 = none ∧
    fdS.backend.available = false ∧
    (fdS.db.storage.find? 6).bind (fun s => s.find? 2) = some 33 ∧
    fdS.storageRef 6 2 = Except.ok 33 ∧
    (fdS.storage 6 2).1 = Except.error (DatabaseError.getAccount 6) ∧
    (fdS.storage 6 2).1 ≠ fdS.storageRef 6 2 := by
  refine ⟨rfl, rfl, rfl, rfl, rfl, rfl, ?_⟩
  intro h
  exact Except.noConfusion h
